import Mathlib

/-!
Shallow embedding of the gulp-remember plugin (src/index.js).

JavaScript objects used as dictionaries are modelled as association lists
with insertion order: assigning to an existing key updates the value in
place, assigning to a fresh key appends, and a for-in loop visits the
entries in list order, matching the iteration order of string-keyed
JavaScript objects. Object identity matters for the registry (forgetAll
assigns a brand-new object to the registry slot), so the registry maps a
cache name to a numeric object id and a separate store maps ids to cache
contents; a stage holds the id of the cache object it was bound to at
construction time.
-/

set_option autoImplicit false

namespace GulpRemember

/-- A JavaScript value in cacheName argument position: undefined, a number,
a string, or a value of any other type (which every entry point rejects). -/
inductive JSVal where
  | undef
  | num (n : Int)
  | str (s : String)
  | other
  deriving DecidableEq, Repr

def pluginName : String := "gulp-remember"

def defaultName : String := "_default"

/-- The check every non-constructor entry point performs:
typeof cacheName is number or string. -/
def isNumOrStr : JSVal → Bool
  | .num _ => true
  | .str _ => true
  | _ => false

/-- The constructor check additionally accepts undefined. -/
def ctorTypeOk (v : JSVal) : Bool :=
  v == .undef || isNumOrStr v

/-- JavaScript falsiness of the values that can reach the expression
cacheName or defaultName: undefined, the number 0 and the empty string
are falsy. -/
def isFalsy : JSVal → Bool
  | .undef => true
  | .num n => n == 0
  | .str s => s == ""
  | .other => false

/-- Coercion of a cacheName value to a property key, as JavaScript does
when indexing an object: numbers render to their decimal string. -/
def jsKey : JSVal → String
  | .num n => toString n
  | .str s => s
  | .undef => "undefined"
  | .other => "[object Object]"

/-- Name resolution in the constructor: cacheName or defaultName,
then key coercion. -/
def resolveCtorName (v : JSVal) : String :=
  if isFalsy v then defaultName else jsKey v

/-- Property read on an object: first entry with the key. -/
def jsGet {κ α : Type} [DecidableEq κ] : List (κ × α) → κ → Option α
  | [], _ => none
  | (k, v) :: rest, key => if k = key then some v else jsGet rest key

/-- Property write on an object: update in place if the key exists
(preserving its position), otherwise append. -/
def jsSet {κ α : Type} [DecidableEq κ] : List (κ × α) → κ → α → List (κ × α)
  | [], key, v => [(key, v)]
  | (k, w) :: rest, key, v =>
      if k = key then (k, v) :: rest else (k, w) :: jsSet rest key v

/-- Property delete on an object. -/
def jsDelete {κ α : Type} [DecidableEq κ] : List (κ × α) → κ → List (κ × α)
  | [], _ => []
  | (k, w) :: rest, key =>
      if k = key then jsDelete rest key else (k, w) :: jsDelete rest key

def jsKeys {κ α : Type} (m : List (κ × α)) : List κ := m.map Prod.fst

def jsValues {κ α : Type} (m : List (κ × α)) : List α := m.map Prod.snd

/-- A string-keyed JavaScript object. -/
abbrev JsMap (α : Type) : Type := List (String × α)

/-- A vinyl-style file record: a path, opaque contents, and an optional
ordered history of paths (absent models a file object with no history
property). -/
structure VFile where
  path : String
  contents : String
  history : Option (List String)
  deriving DecidableEq, Repr

/-- One named cache: the files mapping and the history index. -/
structure Cache where
  files : JsMap VFile
  history : JsMap String
  deriving DecidableEq, Repr

def emptyCache : Cache := Cache.mk [] []

/-- The module state: names maps a cache name to the id of its current
cache object, store maps ids to cache objects, nextId is the allocator. -/
structure Registry where
  names : JsMap Nat
  store : List (Nat × Cache)
  nextId : Nat
  deriving DecidableEq, Repr

def initRegistry : Registry := Registry.mk [] [] 0

/-- The cache object a given id refers to. -/
def cacheAt (r : Registry) (id : Nat) : Cache :=
  (jsGet r.store id).getD emptyCache

/-- Mutate the cache object with the given id. -/
def setCacheAt (r : Registry) (id : Nat) (c : Cache) : Registry :=
  Registry.mk r.names (jsSet r.store id c) r.nextId

structure PluginError where
  plugin : String
  message : String
  deriving DecidableEq, Repr

/-- One util.log call: the plugin name and the message. -/
abbrev Log : Type := String × String

def usageCtor : String :=
  "Usage: require(\"gulp-remember\")(name); where name is undefined, number or string"

def usageForget : String :=
  "Usage: require(\"gulp-remember\").forget(cacheName, path); where cacheName is undefined, number or string and path is a string"

def usageForgetUH : String :=
  "Usage: require(\"gulp-remember\").forgetUsingHistory(cacheName, path); where cacheName is undefined, number or string and path is a string"

def usageForgetAll : String :=
  "Usage: require(\"gulp-remember\").forgetAll(cacheName); where cacheName is undefined, number or string"

def usageCacheFor : String :=
  "Usage: require(\"gulp-remember\").cacheFor(cacheName); where cacheName is undefined, number or string"

def usageHistoryFor : String :=
  "Usage: require(\"gulp-remember\").historyFor(cacheName); where cacheName is undefined, number or string"

/-- gulpRemember(cacheName): validate the argument type, resolve falsy
names to the default, create the cache on first use, and return the id
of the cache object the new stage is bound to. -/
def gulpRemember (r : Registry) (cacheName : JSVal) :
    Except PluginError (Registry × Nat) :=
  if ctorTypeOk cacheName = false then
    .error (PluginError.mk pluginName usageCtor)
  else
    let key := resolveCtorName cacheName
    match jsGet r.names key with
    | some id => .ok (r, id)
    | none =>
        let id := r.nextId
        .ok (Registry.mk (jsSet r.names key id) (jsSet r.store id emptyCache) (id + 1), id)

/-- transform(file, enc, callback) of a stage bound to cache object id:
store the file under its path and index every path of its history
(a file with no history property indexes nothing). -/
def transform (r : Registry) (id : Nat) (file : VFile) : Registry :=
  let c := cacheAt r id
  setCacheAt r id
    (Cache.mk (jsSet c.files file.path file)
      ((file.history.getD []).foldl (fun h p => jsSet h p file.path) c.history))

/-- flush(callback) of a stage bound to cache object id: push every record
of the files mapping of that object, in iteration order. -/
def flush (r : Registry) (id : Nat) : List VFile :=
  jsValues (cacheAt r id).files

/-- The arguments of a forget-style call: JavaScript distinguishes the
one-argument and the two-argument call through arguments.length. -/
inductive ForgetArgs where
  | one (path : String)
  | two (cacheName : JSVal) (path : String)
  deriving DecidableEq, Repr

/-- Argument shifting: a single argument is the path and the cache name
defaults. -/
def argName : ForgetArgs → JSVal
  | .one _ => .str defaultName
  | .two cacheName _ => cacheName

def argPath : ForgetArgs → String
  | .one path => path
  | .two _ path => path

/-- Body of forget after argument shifting. On the found branch, every
key of the stored record history array is deleted from the history
mapping, then the files entry is deleted. -/
def forgetCore (r : Registry) (cacheName : JSVal) (path : String) :
    Except PluginError (Registry × List Log) :=
  if isNumOrStr cacheName = false then
    .error (PluginError.mk pluginName usageForget)
  else
    match jsGet r.names (jsKey cacheName) with
    | none =>
        .ok (r, [(pluginName,
          "- .forget() warning: cache " ++ jsKey cacheName ++ " not found")])
    | some id =>
        match jsGet (cacheAt r id).files path with
        | none =>
            .ok (r, [(pluginName,
              "- .forget() warning: file " ++ path ++ " not found in cache " ++ jsKey cacheName)])
        | some file =>
            .ok (setCacheAt r id
              (Cache.mk (jsDelete (cacheAt r id).files path)
                (((file.history.getD []).foldl (fun h q => jsDelete h q)
                  (cacheAt r id).history))), [])

def forget (r : Registry) (args : ForgetArgs) :
    Except PluginError (Registry × List Log) :=
  forgetCore r (argName args) (argPath args)

/-- Body of forgetUsingHistory after argument shifting: a current-path hit
delegates to forget with the argument itself, otherwise a history hit
delegates with the resolved current path, otherwise warn. -/
def forgetUsingHistoryCore (r : Registry) (cacheName : JSVal) (path : String) :
    Except PluginError (Registry × List Log) :=
  if isNumOrStr cacheName = false then
    .error (PluginError.mk pluginName usageForgetUH)
  else
    match jsGet r.names (jsKey cacheName) with
    | none =>
        .ok (r, [(pluginName,
          "- .forgetUsingHistory() warning: cache " ++ jsKey cacheName ++ " not found")])
    | some id =>
        if (jsGet (cacheAt r id).files path).isSome then
          forgetCore r cacheName path
        else
          match jsGet (cacheAt r id).history path with
          | none =>
              .ok (r, [(pluginName,
                "- .forgetUsingHistory() warning: file " ++ path ++ " not found in cache " ++ jsKey cacheName)])
          | some cur => forgetCore r cacheName cur

def forgetUsingHistory (r : Registry) (args : ForgetArgs) :
    Except PluginError (Registry × List Log) :=
  forgetUsingHistoryCore r (argName args) (argPath args)

/-- forgetAll(cacheName): a missing cache warns; an existing one has a
brand-new empty cache object assigned to its registry slot (the source
assigns a fresh object literal, it does not clear the old object). -/
def forgetAll (r : Registry) (arg : Option JSVal) :
    Except PluginError (Registry × List Log) :=
  let cacheName := arg.getD (.str defaultName)
  if isNumOrStr cacheName = false then
    .error (PluginError.mk pluginName usageForgetAll)
  else
    match jsGet r.names (jsKey cacheName) with
    | none =>
        .ok (r, [(pluginName,
          "- .forget() warning: cache " ++ jsKey cacheName ++ " not found")])
    | some _ =>
        .ok (Registry.mk (jsSet r.names (jsKey cacheName) r.nextId)
          (jsSet r.store r.nextId emptyCache) (r.nextId + 1), [])

/-- cacheFor(cacheName): the expression (caches[cacheName] or empty object)
dot files yields undefined (none) when the cache does not exist. -/
def cacheFor (r : Registry) (arg : Option JSVal) :
    Except PluginError (Option (JsMap VFile)) :=
  let cacheName := arg.getD (.str defaultName)
  if isNumOrStr cacheName = false then
    .error (PluginError.mk pluginName usageCacheFor)
  else
    match jsGet r.names (jsKey cacheName) with
    | none => .ok none
    | some id => .ok (some (cacheAt r id).files)

/-- historyFor(cacheName): analogous to cacheFor. -/
def historyFor (r : Registry) (arg : Option JSVal) :
    Except PluginError (Option (JsMap String)) :=
  let cacheName := arg.getD (.str defaultName)
  if isNumOrStr cacheName = false then
    .error (PluginError.mk pluginName usageHistoryFor)
  else
    match jsGet r.names (jsKey cacheName) with
    | none => .ok none
    | some id => .ok (some (cacheAt r id).history)

/-- Extract the registry from the result of a mutating call, the input
registry standing in when the call threw (an entry point that throws does
so before any mutation). -/
def runOp {β : Type} (e : Except PluginError (Registry × β)) (r : Registry) : Registry :=
  match e with
  | .ok p => p.1
  | .error _ => r

/-- The id the constructor bound the new stage to. -/
def idOf (e : Except PluginError (Registry × Nat)) : Nat :=
  match e with
  | .ok p => p.2
  | .error _ => 0

/-- One registry-mutating operation: a stage construction, a transform of
a record through a stage bound to a cache object id, or a forget variant. -/
inductive Op where
  | construct (cacheName : JSVal)
  | write (id : Nat) (file : VFile)
  | doForget (args : ForgetArgs)
  | doForgetUH (args : ForgetArgs)
  | doForgetAll (arg : Option JSVal)
  deriving DecidableEq, Repr

def applyOp (r : Registry) : Op → Registry
  | .construct n => runOp (gulpRemember r n) r
  | .write id f => transform r id f
  | .doForget a => runOp (forget r a) r
  | .doForgetUH a => runOp (forgetUsingHistory r a) r
  | .doForgetAll a => runOp (forgetAll r a) r

def applyOps (r : Registry) (ops : List Op) : Registry :=
  ops.foldl applyOp r

/-- The cross-map invariant of the spec for one cache: every path P stored
as a value of the history mapping has files entry P, and the record there
carries in its own history sequence the key that maps to P. -/
def CacheInv (c : Cache) : Prop :=
  ∀ H P, jsGet c.history H = some P →
    ∃ f, jsGet c.files P = some f ∧ H ∈ f.history.getD []

/-- Every cache object of the registry satisfies the cross-map invariant. -/
def RegistryInv (r : Registry) : Prop :=
  ∀ id, CacheInv (cacheAt r id)

/-- Executable check of the cross-map invariant. -/
def cacheInvB (c : Cache) : Bool :=
  c.history.all fun e =>
    match jsGet c.files e.2 with
    | none => false
    | some f => decide (e.1 ∈ f.history.getD [])

/-- Guard under which one operation keeps the invariant: a transform must
only store a record whose history sequence covers every historical key
currently mapped to its path (otherwise the stale reverse pointers it
leaves behind break the invariant). Every other operation is unguarded. -/
def goodStep (r : Registry) : Op → Bool
  | .write id f =>
      (cacheAt r id).history.all fun e =>
        decide (e.2 = f.path → e.1 ∈ f.history.getD [])
  | _ => true

def goodOps (r : Registry) : List Op → Bool
  | [] => true
  | op :: rest => goodStep r op && goodOps (applyOp r op) rest

/-! Concrete records and run states used by the counterexamples and
witnesses. Each models a plain vinyl file; the history of a typical file
is the one-element sequence of its own path. -/

def fileA : VFile := VFile.mk "a" "contents-a" (some ["a"])

def fileB : VFile := VFile.mk "b" "contents-b" (some ["b"])

def fileC : VFile := VFile.mk "c" "contents-c" (some ["c"])

/-- A record with no history property at all. -/
def fileNoHist : VFile := VFile.mk "a" "contents-a" none

/-- A record at path a that was once known as x. -/
def recXA : VFile := VFile.mk "a" "contents-1" (some ["x", "a"])

/-- A record at path b that was once known as x. -/
def recXB : VFile := VFile.mk "b" "contents-2" (some ["x", "b"])

/-- A record at path a whose history is just its own path. -/
def recA2 : VFile := VFile.mk "a" "contents-3" (some ["a"])

/-- A renamed record: current path new/name, once known as old/name. -/
def recNew : VFile := VFile.mk "new/name" "contents-n" (some ["old/name", "new/name"])

/-- Claim C1 run: a stage on cache c stores A and B, the run ends, a second
stage on cache c stores C, then flushes. -/
def c1reg1 : Registry := runOp (gulpRemember initRegistry (.str "c")) initRegistry

def c1id : Nat := idOf (gulpRemember initRegistry (.str "c"))

def c1afterRun1 : Registry := transform (transform c1reg1 c1id fileA) c1id fileB

def c1reg2 : Registry := runOp (gulpRemember c1afterRun1 (.str "c")) c1afterRun1

def c1id2 : Nat := idOf (gulpRemember c1afterRun1 (.str "c"))

def c1final : Registry := transform c1reg2 c1id2 fileC

def c1run : List VFile := flush c1final c1id2

/-- Claim C2 state: records at a and b, both once known as x, so the
history entry for x points at b. -/
def c2reg : Registry := runOp (gulpRemember initRegistry (.str "c2")) initRegistry

def c2pre : Registry := transform (transform c2reg 0 recXA) 0 recXB

def c2post : Registry := runOp (forget c2pre (.two (.str "c2") "a")) c2pre

/-- Claim C3 state: a record with no history property is stored. -/
def c3reg : Registry := runOp (gulpRemember initRegistry (.str "c3")) initRegistry

def c3post : Registry := transform c3reg 0 fileNoHist

/-- Claim C4 state: the renamed record is stored, then forgotten through
its old path. -/
def c4reg : Registry := runOp (gulpRemember initRegistry (.str "c4")) initRegistry

def c4stored : Registry := transform c4reg 0 recNew

def c4post : Registry := runOp (forgetUsingHistory c4stored (.two (.str "c4") "old/name")) c4stored

/-- Claim C5 state: a stage bound to cache c5 (cache object id 0) stores a
record, then forgetAll wipes cache c5. -/
def c5reg : Registry := runOp (gulpRemember initRegistry (.str "c5")) initRegistry

def c5stored : Registry := transform c5reg 0 fileA

def c5post : Registry := runOp (forgetAll c5stored (some (.str "c5"))) c5stored

/-- Claim C6 state: the record at a once known as x is overwritten by a
record at a whose history no longer mentions x. -/
def c6post : Registry :=
  applyOps initRegistry [Op.construct (.str "c6"), Op.write 0 recXA, Op.write 0 recA2]

/-! Basic lemmas about the object operations. -/

section MapLemmas

variable {κ α : Type} [DecidableEq κ]

theorem jsGet_nil (key : κ) : jsGet ([] : List (κ × α)) key = none := rfl

theorem jsGet_set_self (m : List (κ × α)) (key : κ) (v : α) :
    jsGet (jsSet m key v) key = some v := by
  induction m with
  | nil => simp [jsGet, jsSet]
  | cons e rest ih =>
      obtain ⟨k, w⟩ := e
      by_cases h : k = key
      · simp [jsSet, jsGet, h]
      · simp [jsSet, jsGet, h, ih]

theorem jsGet_set_ne (m : List (κ × α)) (key q : κ) (v : α) (h : q ≠ key) :
    jsGet (jsSet m key v) q = jsGet m q := by
  induction m with
  | nil => simp [jsGet, jsSet, Ne.symm h]
  | cons e rest ih =>
      obtain ⟨k, w⟩ := e
      simp only [jsSet]
      by_cases hk : k = key
      · rw [if_pos hk]
        subst hk
        simp [jsGet, Ne.symm h]
      · rw [if_neg hk]
        by_cases hq : k = q <;> simp [jsGet, hq, ih]

theorem jsGet_delete_self (m : List (κ × α)) (key : κ) :
    jsGet (jsDelete m key) key = none := by
  induction m with
  | nil => simp [jsGet, jsDelete]
  | cons e rest ih =>
      obtain ⟨k, w⟩ := e
      by_cases h : k = key
      · simp [jsDelete, h, ih]
      · simp [jsDelete, jsGet, h, ih]

theorem jsGet_delete_ne (m : List (κ × α)) (key q : κ) (h : q ≠ key) :
    jsGet (jsDelete m key) q = jsGet m q := by
  induction m with
  | nil => simp [jsDelete]
  | cons e rest ih =>
      obtain ⟨k, w⟩ := e
      simp only [jsDelete]
      by_cases hk : k = key
      · rw [if_pos hk]
        subst hk
        rw [ih]
        simp [jsGet, Ne.symm h]
      · rw [if_neg hk]
        by_cases hq : k = q <;> simp [jsGet, hq, ih]

theorem jsGet_mem (m : List (κ × α)) (key : κ) (v : α)
    (h : jsGet m key = some v) : (key, v) ∈ m := by
  induction m with
  | nil => simp [jsGet] at h
  | cons e rest ih =>
      obtain ⟨k, w⟩ := e
      by_cases hk : k = key
      · subst hk
        simp [jsGet] at h
        subst h
        exact List.mem_cons_self _ _
      · simp [jsGet, hk] at h
        exact List.mem_cons_of_mem _ (ih h)

theorem jsGet_foldl_delete (L : List κ) (m : List (κ × α)) (q : κ) :
    jsGet (L.foldl (fun h p => jsDelete h p) m) q =
      if q ∈ L then none else jsGet m q := by
  induction L generalizing m with
  | nil => simp
  | cons a L ih =>
      simp only [List.foldl_cons]
      rw [ih]
      by_cases hqa : q = a
      · subst hqa
        simp [jsGet_delete_self]
      · by_cases hqL : q ∈ L <;>
          simp [hqa, hqL, jsGet_delete_ne _ _ _ hqa]

theorem jsGet_foldl_set (L : List κ) (m : List (κ × α)) (v : α) (q : κ) :
    jsGet (L.foldl (fun h p => jsSet h p v) m) q =
      if q ∈ L then some v else jsGet m q := by
  induction L generalizing m with
  | nil => simp
  | cons a L ih =>
      simp only [List.foldl_cons]
      rw [ih]
      by_cases hqa : q = a
      · subst hqa
        by_cases hqL : q ∈ L <;> simp [hqL, jsGet_set_self]
      · by_cases hqL : q ∈ L <;>
          simp [hqa, hqL, jsGet_set_ne _ _ _ _ hqa]

end MapLemmas

theorem cacheAt_setCacheAt_self (r : Registry) (id : Nat) (c : Cache) :
    cacheAt (setCacheAt r id c) id = c := by
  simp [cacheAt, setCacheAt, jsGet_set_self]

theorem cacheAt_setCacheAt_ne (r : Registry) (id j : Nat) (c : Cache)
    (h : j ≠ id) : cacheAt (setCacheAt r id c) j = cacheAt r j := by
  simp [cacheAt, setCacheAt, jsGet_set_ne _ _ _ _ h]

theorem cacheAt_init (id : Nat) : cacheAt initRegistry id = emptyCache := rfl

theorem cacheAt_transform_self (r : Registry) (id : Nat) (f : VFile) :
    cacheAt (transform r id f) id =
      Cache.mk (jsSet (cacheAt r id).files f.path f)
        ((f.history.getD []).foldl (fun h p => jsSet h p f.path) (cacheAt r id).history) := by
  simp only [transform]
  exact cacheAt_setCacheAt_self _ _ _

theorem cacheAt_transform_ne (r : Registry) (id j : Nat) (f : VFile) (h : j ≠ id) :
    cacheAt (transform r id f) j = cacheAt r j := by
  simp only [transform]
  exact cacheAt_setCacheAt_ne _ _ _ _ h

theorem cacheInv_empty : CacheInv emptyCache := by
  intro H P h
  simp [emptyCache, jsGet] at h

theorem registryInv_init : RegistryInv initRegistry := by
  intro id
  rw [cacheAt_init]
  exact cacheInv_empty

theorem cacheInvB_sound (c : Cache) (h : cacheInvB c = true) : CacheInv c := by
  intro H P hget
  have hmem : (H, P) ∈ c.history := jsGet_mem _ _ _ hget
  have hall := List.all_eq_true.mp h (H, P) hmem
  simp only at hall
  cases hf : jsGet c.files P with
  | none => rw [hf] at hall; exact absurd hall (by simp)
  | some f =>
      rw [hf] at hall
      exact ⟨f, rfl, of_decide_eq_true hall⟩

/-! Characterization of forget on each of its three branches. -/

theorem forgetCore_badType (r : Registry) (n : JSVal) (p : String)
    (ht : isNumOrStr n = false) :
    forgetCore r n p = .error (PluginError.mk pluginName usageForget) := by
  simp [forgetCore, ht]

theorem forgetCore_noCache (r : Registry) (n : JSVal) (p : String)
    (ht : isNumOrStr n = true) (hn : jsGet r.names (jsKey n) = none) :
    forgetCore r n p = .ok (r, [(pluginName,
      "- .forget() warning: cache " ++ jsKey n ++ " not found")]) := by
  simp [forgetCore, ht, hn]

theorem forgetCore_noFile (r : Registry) (n : JSVal) (p : String) (id : Nat)
    (ht : isNumOrStr n = true) (hn : jsGet r.names (jsKey n) = some id)
    (hf : jsGet (cacheAt r id).files p = none) :
    forgetCore r n p = .ok (r, [(pluginName,
      "- .forget() warning: file " ++ p ++ " not found in cache " ++ jsKey n)]) := by
  simp [forgetCore, ht, hn, hf]

theorem forgetCore_found (r : Registry) (n : JSVal) (p : String) (id : Nat) (file : VFile)
    (ht : isNumOrStr n = true) (hn : jsGet r.names (jsKey n) = some id)
    (hf : jsGet (cacheAt r id).files p = some file) :
    forgetCore r n p = .ok (setCacheAt r id
      (Cache.mk (jsDelete (cacheAt r id).files p)
        ((file.history.getD []).foldl (fun h q => jsDelete h q)
          (cacheAt r id).history)), []) := by
  simp [forgetCore, ht, hn, hf]

/-! Preservation of the cross-map invariant by each operation. -/

theorem transform_preserves_inv (r : Registry) (id : Nat) (f : VFile)
    (hInv : RegistryInv r)
    (hguard : ∀ H, jsGet (cacheAt r id).history H = some f.path → H ∈ f.history.getD []) :
    RegistryInv (transform r id f) := by
  intro j
  by_cases hj : j = id
  · subst hj
    rw [cacheAt_transform_self]
    intro H P hget
    simp only at hget
    rw [jsGet_foldl_set] at hget
    by_cases hH : H ∈ f.history.getD []
    · rw [if_pos hH] at hget
      have hP : P = f.path := (Option.some.inj hget).symm
      subst hP
      exact ⟨f, by simp only; rw [jsGet_set_self], hH⟩
    · rw [if_neg hH] at hget
      obtain ⟨g, hg, hmem⟩ := hInv j H P hget
      by_cases hP : P = f.path
      · exact absurd (hguard H (hP ▸ hget)) hH
      · exact ⟨g, by simp only; rw [jsGet_set_ne _ _ _ _ hP]; exact hg, hmem⟩
  · rw [cacheAt_transform_ne _ _ _ _ hj]
    exact hInv j

theorem forgetCore_preserves_inv (r : Registry) (n : JSVal) (p : String)
    (hInv : RegistryInv r) :
    RegistryInv (runOp (forgetCore r n p) r) := by
  cases ht : isNumOrStr n with
  | false => rw [forgetCore_badType r n p ht]; exact hInv
  | true =>
    cases hn : jsGet r.names (jsKey n) with
    | none => rw [forgetCore_noCache r n p ht hn]; exact hInv
    | some id =>
      cases hf : jsGet (cacheAt r id).files p with
      | none => rw [forgetCore_noFile r n p id ht hn hf]; exact hInv
      | some file =>
        rw [forgetCore_found r n p id file ht hn hf]
        simp only [runOp]
        intro j
        by_cases hj : j = id
        · subst hj
          rw [cacheAt_setCacheAt_self]
          intro H P hget
          simp only at hget
          rw [jsGet_foldl_delete] at hget
          by_cases hH : H ∈ file.history.getD []
          · rw [if_pos hH] at hget; exact absurd hget (by simp)
          · rw [if_neg hH] at hget
            obtain ⟨g, hg, hmem⟩ := hInv j H P hget
            by_cases hP : P = p
            · subst hP
              rw [hf] at hg
              have : file = g := Option.some.inj hg
              subst this
              exact absurd hmem hH
            · exact ⟨g, by simp only; rw [jsGet_delete_ne _ _ _ hP]; exact hg, hmem⟩
        · rw [cacheAt_setCacheAt_ne _ _ _ _ hj]
          exact hInv j

theorem forgetUHCore_preserves_inv (r : Registry) (n : JSVal) (p : String)
    (hInv : RegistryInv r) :
    RegistryInv (runOp (forgetUsingHistoryCore r n p) r) := by
  cases ht : isNumOrStr n with
  | false => simp only [forgetUsingHistoryCore, ht]; simp [runOp]; exact hInv
  | true =>
    cases hn : jsGet r.names (jsKey n) with
    | none => simp only [forgetUsingHistoryCore, ht, hn]; simp [runOp]; exact hInv
    | some id =>
      cases hf : jsGet (cacheAt r id).files p with
      | some file =>
          have : forgetUsingHistoryCore r n p = forgetCore r n p := by
            simp [forgetUsingHistoryCore, ht, hn, hf]
          rw [this]
          exact forgetCore_preserves_inv r n p hInv
      | none =>
          cases hh : jsGet (cacheAt r id).history p with
          | none => simp only [forgetUsingHistoryCore, ht, hn, hf, hh]; simp [runOp]; exact hInv
          | some cur =>
              have : forgetUsingHistoryCore r n p = forgetCore r n cur := by
                simp [forgetUsingHistoryCore, ht, hn, hf, hh]
              rw [this]
              exact forgetCore_preserves_inv r n cur hInv

theorem newEmpty_preserves_inv (r : Registry) (names2 : JsMap Nat) (k : Nat)
    (hInv : RegistryInv r) :
    RegistryInv (Registry.mk names2 (jsSet r.store k emptyCache) (k + 1)) := by
  intro j
  by_cases hj : j = k
  · subst hj
    have : cacheAt (Registry.mk names2 (jsSet r.store j emptyCache) (j + 1)) j = emptyCache := by
      simp [cacheAt, jsGet_set_self]
    rw [this]
    exact cacheInv_empty
  · have : cacheAt (Registry.mk names2 (jsSet r.store k emptyCache) (k + 1)) j = cacheAt r j := by
      simp [cacheAt, jsGet_set_ne _ _ _ _ hj]
    rw [this]
    exact hInv j

theorem forgetAll_preserves_inv (r : Registry) (arg : Option JSVal)
    (hInv : RegistryInv r) :
    RegistryInv (runOp (forgetAll r arg) r) := by
  cases ht : isNumOrStr (arg.getD (.str defaultName)) with
  | false => simp only [forgetAll, ht]; simp [runOp]; exact hInv
  | true =>
    cases hn : jsGet r.names (jsKey (arg.getD (.str defaultName))) with
    | none => simp only [forgetAll, ht, hn]; simp [runOp]; exact hInv
    | some id =>
        simp only [forgetAll, ht, hn]
        simp only [runOp]
        exact newEmpty_preserves_inv r _ _ hInv

theorem gulpRemember_preserves_inv (r : Registry) (n : JSVal)
    (hInv : RegistryInv r) :
    RegistryInv (runOp (gulpRemember r n) r) := by
  cases ht : ctorTypeOk n with
  | false => simp only [gulpRemember, ht]; simp [runOp]; exact hInv
  | true =>
    cases hn : jsGet r.names (resolveCtorName n) with
    | some id => simp only [gulpRemember, ht, hn]; simp [runOp]; exact hInv
    | none =>
        simp only [gulpRemember, ht, hn]
        simp only [runOp]
        exact newEmpty_preserves_inv r _ _ hInv

theorem applyOp_preserves_inv (r : Registry) (op : Op)
    (hInv : RegistryInv r) (hg : goodStep r op = true) :
    RegistryInv (applyOp r op) := by
  cases op with
  | construct n => exact gulpRemember_preserves_inv r n hInv
  | write id f =>
      apply transform_preserves_inv r id f hInv
      intro H hget
      simp only [goodStep] at hg
      have hmem : (H, f.path) ∈ (cacheAt r id).history := jsGet_mem _ _ _ hget
      have := List.all_eq_true.mp hg (H, f.path) hmem
      exact of_decide_eq_true this rfl
  | doForget a => exact forgetCore_preserves_inv r (argName a) (argPath a) hInv
  | doForgetUH a => exact forgetUHCore_preserves_inv r (argName a) (argPath a) hInv
  | doForgetAll a => exact forgetAll_preserves_inv r a hInv

theorem applyOps_preserves_inv (ops : List Op) :
    ∀ r : Registry, RegistryInv r → goodOps r ops = true →
      RegistryInv (applyOps r ops) := by
  induction ops with
  | nil => intro r h _; simpa [applyOps] using h
  | cons op rest ih =>
      intro r h hg
      simp only [goodOps, Bool.and_eq_true] at hg
      have step := applyOp_preserves_inv r op h hg.1
      have : applyOps r (op :: rest) = applyOps (applyOp r op) rest := by
        simp [applyOps]
      rw [this]
      exact ih (applyOp r op) step hg.2

/-! The claims. -/

/-- C1: the flush of a run emits exactly the records currently stored in
the files mapping of the bound cache object, in iteration order, one
emission per stored path and none duplicated (under the reachable-state
facts that keys are unique and every record is stored under its own path);
in particular storing A and B on cache c, ending, then storing C on cache
c in a new run flushes exactly the three records A, B, C. -/
theorem flush_emits_cache_exactly (r : Registry) (id : Nat)
    (h1 : (jsKeys (cacheAt r id).files).Nodup)
    (h2 : ∀ e ∈ (cacheAt r id).files, (Prod.snd e).path = Prod.fst e) :
    flush r id = jsValues (cacheAt r id).files
    ∧ (flush r id).map VFile.path = jsKeys (cacheAt r id).files
    ∧ (flush r id).Nodup
    ∧ c1run = [fileA, fileB, fileC] := by
  have hmap : (flush r id).map VFile.path = jsKeys (cacheAt r id).files := by
    unfold flush jsValues jsKeys
    rw [List.map_map]
    exact List.map_congr_left h2
  refine ⟨rfl, hmap, ?_, by decide⟩
  have hnd : ((flush r id).map VFile.path).Nodup := by rw [hmap]; exact h1
  exact hnd.of_map

/-- Witness for C1 at the cross-run state of the scenario. -/
theorem flush_emits_cache_exactly_witness :
    flush c1final 0 = jsValues (cacheAt c1final 0).files
    ∧ (flush c1final 0).map VFile.path = jsKeys (cacheAt c1final 0).files
    ∧ (flush c1final 0).Nodup
    ∧ c1run = [fileA, fileB, fileC] :=
  flush_emits_cache_exactly c1final 0 (by decide) (by decide)

/-- C2: counterexample. After storing a record at a once known as x and a
record at b once known as x, the history entry for x holds the value b;
forget on path a nevertheless removes that entry, because removal is keyed
by the history array of the stored record, not by the stored value. -/
theorem forget_value_removal_claim_false :
    jsGet (cacheAt c2pre 0).history "x" = some "b"
    ∧ jsGet (cacheAt c2post 0).history "x" = none := by decide

/-- C2 (amended): on a hit, forget removes from the history mapping exactly
the entries whose key occurs in the history sequence of the stored record
(not the entries whose value equals the path), and then removes the files
entry for the path. -/
theorem forget_removes_by_record_history (r : Registry) (n : JSVal) (p : String)
    (id : Nat) (file : VFile)
    (ht : isNumOrStr n = true)
    (hn : jsGet r.names (jsKey n) = some id)
    (hf : jsGet (cacheAt r id).files p = some file) :
    ∃ r2, forget r (.two n p) = .ok (r2, [])
      ∧ (∀ H, jsGet (cacheAt r2 id).history H =
          if H ∈ file.history.getD [] then none else jsGet (cacheAt r id).history H)
      ∧ (∀ q, jsGet (cacheAt r2 id).files q =
          if q = p then none else jsGet (cacheAt r id).files q) := by
  refine ⟨setCacheAt r id (Cache.mk (jsDelete (cacheAt r id).files p)
      ((file.history.getD []).foldl (fun h q => jsDelete h q) (cacheAt r id).history)),
    forgetCore_found r n p id file ht hn hf, ?_, ?_⟩
  · intro H
    rw [cacheAt_setCacheAt_self]
    simp only
    rw [jsGet_foldl_delete]
  · intro q
    rw [cacheAt_setCacheAt_self]
    simp only
    by_cases hq : q = p
    · rw [if_pos hq, hq]
      exact jsGet_delete_self _ _
    · rw [if_neg hq]
      exact jsGet_delete_ne _ _ _ hq

/-- Witness for C2 (amended) at the two-record state. -/
theorem forget_removes_by_record_history_witness :
    ∃ r2, forget c2pre (.two (.str "c2") "a") = .ok (r2, [])
      ∧ (∀ H, jsGet (cacheAt r2 0).history H =
          if H ∈ recXA.history.getD [] then none else jsGet (cacheAt c2pre 0).history H)
      ∧ (∀ q, jsGet (cacheAt r2 0).files q =
          if q = "a" then none else jsGet (cacheAt c2pre 0).files q) :=
  forget_removes_by_record_history c2pre (.str "c2") "a" 0 recXA
    (by decide) (by decide) (by decide)

/-- C3: counterexample. A record with no history property indexes nothing:
after storing it into a fresh cache, the history mapping has no entry for
its path, where the claim expects the path to map to itself. -/
theorem transform_absent_history_claim_false :
    fileNoHist.history = none
    ∧ jsGet (cacheAt c3post 0).history "a" = none
    ∧ jsGet (cacheAt c3post 0).history "a" ≠ some "a" := by decide

/-- C3 (amended): a record with an absent history property is treated as
having the empty history sequence, not the one-element sequence of its own
path: the store writes the files entry but leaves the history mapping
unchanged, so no history entry for the record path is created. -/
theorem transform_absent_history_noop (r : Registry) (id : Nat) (f : VFile)
    (h : f.history = none) :
    (cacheAt (transform r id f) id).history = (cacheAt r id).history
    ∧ jsGet (cacheAt (transform r id f) id).files f.path = some f := by
  rw [cacheAt_transform_self]
  constructor
  · simp [h]
  · simp only
    rw [jsGet_set_self]

/-- Witness for C3 (amended) at a record with no history property. -/
theorem transform_absent_history_noop_witness :
    (cacheAt (transform c3reg 0 fileNoHist) 0).history = (cacheAt c3reg 0).history
    ∧ jsGet (cacheAt (transform c3reg 0 fileNoHist) 0).files fileNoHist.path = some fileNoHist :=
  transform_absent_history_noop c3reg 0 fileNoHist (by decide)

/-- C4: forgetUsingHistory resolves a current-path hit first (delegating to
forget with the argument itself), then a history hit (delegating with the
resolved current path), and otherwise warns without mutating; in
particular, after storing a record at new/name with history containing
old/name, forgetUsingHistory with old/name removes the record, leaving no
files entry at new/name and a flush of zero records. -/
theorem forgetUsingHistory_priority (r : Registry) (n : JSVal) (p : String) (id : Nat)
    (ht : isNumOrStr n = true)
    (hn : jsGet r.names (jsKey n) = some id) :
    ((jsGet (cacheAt r id).files p).isSome = true →
        forgetUsingHistory r (.two n p) = forget r (.two n p))
    ∧ (∀ cur, jsGet (cacheAt r id).files p = none →
        jsGet (cacheAt r id).history p = some cur →
        forgetUsingHistory r (.two n p) = forget r (.two n cur))
    ∧ (jsGet (cacheAt r id).files p = none →
        jsGet (cacheAt r id).history p = none →
        forgetUsingHistory r (.two n p) = .ok (r, [(pluginName,
          "- .forgetUsingHistory() warning: file " ++ p ++ " not found in cache " ++ jsKey n)]))
    ∧ jsGet (cacheAt c4post 0).files "new/name" = none
    ∧ flush c4post 0 = [] := by
  refine ⟨?_, ?_, ?_, by decide, by decide⟩
  · intro hf
    show forgetUsingHistoryCore r n p = forgetCore r n p
    simp [forgetUsingHistoryCore, ht, hn, hf]
  · intro cur hf hh
    show forgetUsingHistoryCore r n p = forgetCore r n cur
    simp [forgetUsingHistoryCore, ht, hn, hf, hh]
  · intro hf hh
    show forgetUsingHistoryCore r n p = _
    simp [forgetUsingHistoryCore, ht, hn, hf, hh]

/-- Witness for C4 at the rename state. -/
theorem forgetUsingHistory_priority_witness :
    ((jsGet (cacheAt c4stored 0).files "old/name").isSome = true →
        forgetUsingHistory c4stored (.two (.str "c4") "old/name") =
          forget c4stored (.two (.str "c4") "old/name"))
    ∧ (∀ cur, jsGet (cacheAt c4stored 0).files "old/name" = none →
        jsGet (cacheAt c4stored 0).history "old/name" = some cur →
        forgetUsingHistory c4stored (.two (.str "c4") "old/name") =
          forget c4stored (.two (.str "c4") cur))
    ∧ (jsGet (cacheAt c4stored 0).files "old/name" = none →
        jsGet (cacheAt c4stored 0).history "old/name" = none →
        forgetUsingHistory c4stored (.two (.str "c4") "old/name") = .ok (c4stored, [(pluginName,
          "- .forgetUsingHistory() warning: file " ++ "old/name" ++ " not found in cache " ++ jsKey (.str "c4"))]))
    ∧ jsGet (cacheAt c4post 0).files "new/name" = none
    ∧ flush c4post 0 = [] :=
  forgetUsingHistory_priority c4stored (.str "c4") "old/name" 0 (by decide) (by decide)

/-- C5: counterexample. forgetAll assigns a brand-new empty cache object to
the registry slot instead of emptying the bound object: the registry now
maps cache c5 to a fresh object while the stage bound before the call
still holds the old object, and its flush still emits the stored record
instead of zero records. -/
theorem forgetAll_in_place_claim_false :
    jsGet c5post.names "c5" = some 1
    ∧ cacheAt c5post 1 = emptyCache
    ∧ flush c5post 0 = [fileA]
    ∧ flush c5post 0 ≠ [] := by decide

/-- C5 (amended): forgetAll on an existing cache rebinds the name to a
fresh empty cache object and leaves the previously bound object untouched:
lookups by name now see an empty cache, but a stage bound before the call
keeps the old object, so its subsequent flush emits the previously stored
records rather than zero. -/
theorem forgetAll_replaces_cache (r : Registry) (n : JSVal) (id : Nat)
    (ht : isNumOrStr n = true)
    (hn : jsGet r.names (jsKey n) = some id)
    (hlt : id < r.nextId) :
    ∃ r2, forgetAll r (some n) = .ok (r2, [])
      ∧ jsGet r2.names (jsKey n) = some r.nextId
      ∧ cacheAt r2 r.nextId = emptyCache
      ∧ cacheAt r2 id = cacheAt r id
      ∧ flush r2 id = flush r id := by
  have hne : id ≠ r.nextId := Nat.ne_of_lt hlt
  have hca : cacheAt (Registry.mk (jsSet r.names (jsKey n) r.nextId)
      (jsSet r.store r.nextId emptyCache) (r.nextId + 1)) id = cacheAt r id := by
    simp only [cacheAt]
    rw [jsGet_set_ne _ _ _ _ hne]
  refine ⟨Registry.mk (jsSet r.names (jsKey n) r.nextId)
      (jsSet r.store r.nextId emptyCache) (r.nextId + 1), ?_, ?_, ?_, hca, ?_⟩
  · simp [forgetAll, ht, hn]
  · show jsGet (jsSet r.names (jsKey n) r.nextId) (jsKey n) = some r.nextId
    exact jsGet_set_self _ _ _
  · show (jsGet (jsSet r.store r.nextId emptyCache) r.nextId).getD emptyCache = emptyCache
    rw [jsGet_set_self]
    rfl
  · show jsValues (cacheAt _ id).files = jsValues (cacheAt r id).files
    rw [hca]

/-- Witness for C5 (amended) at the stored-then-wiped state. -/
theorem forgetAll_replaces_cache_witness :
    ∃ r2, forgetAll c5stored (some (.str "c5")) = .ok (r2, [])
      ∧ jsGet r2.names (jsKey (.str "c5")) = some c5stored.nextId
      ∧ cacheAt r2 c5stored.nextId = emptyCache
      ∧ cacheAt r2 0 = cacheAt c5stored 0
      ∧ flush r2 0 = flush c5stored 0 :=
  forgetAll_replaces_cache c5stored (.str "c5") 0 (by decide) (by decide) (by decide)

/-- C6: counterexample. Two plain stores reach a cache violating the
invariant: the record at a once known as x is overwritten by a record
whose history is only its own path, leaving the stale entry x mapped to a
in the history mapping while the stored record history no longer contains
x. -/
theorem invariant_reachable_claim_false : ¬ CacheInv (cacheAt c6post 0) := by
  intro h
  obtain ⟨g, hg, hmem⟩ := h "x" "a" (by decide)
  have hga : jsGet (cacheAt c6post 0).files "a" = some recA2 := by decide
  rw [hga] at hg
  have hgr : recA2 = g := Option.some.inj hg
  rw [← hgr] at hmem
  exact absurd hmem (by decide)

/-- C6 (amended): the cross-map invariant is preserved by forget,
forgetUsingHistory, forgetAll and stage construction unconditionally, and
by a store whose record history covers every historical key currently
mapped to its path; every registry reached from an invariant-satisfying
one through a sequence of such guarded operations satisfies the invariant
in every cache. An unguarded overwrite can break it, as the counterexample
shows. -/
theorem cacheInv_preserved_guarded (r : Registry) (ops : List Op)
    (h0 : RegistryInv r) (hg : goodOps r ops = true) :
    RegistryInv (applyOps r ops) :=
  applyOps_preserves_inv ops r h0 hg

/-- Witness for C6 (amended) on a guarded sequence with stores and a
forget. -/
theorem cacheInv_preserved_guarded_witness :
    RegistryInv (applyOps initRegistry [Op.construct (.str "w6"), Op.write 0 fileA,
      Op.write 0 fileB, Op.doForget (.two (.str "w6") "a")]) :=
  cacheInv_preserved_guarded initRegistry
    [Op.construct (.str "w6"), Op.write 0 fileA, Op.write 0 fileB,
      Op.doForget (.two (.str "w6") "a")]
    registryInv_init (by decide)

/-- C7: forget with a valid cache name type, on a missing cache or a
missing path, returns normally with the registry unchanged and logs one
warning whose message names the offending cache name and, for the missing
path case, the offending path. -/
theorem forget_missing_is_warning_noop (r : Registry) (args : ForgetArgs)
    (ht : isNumOrStr (argName args) = true) :
    (jsGet r.names (jsKey (argName args)) = none →
      forget r args = .ok (r, [(pluginName,
        "- .forget() warning: cache " ++ jsKey (argName args) ++ " not found")]))
    ∧ (∀ id, jsGet r.names (jsKey (argName args)) = some id →
        jsGet (cacheAt r id).files (argPath args) = none →
        forget r args = .ok (r, [(pluginName,
          "- .forget() warning: file " ++ argPath args ++ " not found in cache " ++ jsKey (argName args))])) := by
  constructor
  · intro hn
    exact forgetCore_noCache r _ _ ht hn
  · intro id hn hf
    exact forgetCore_noFile r _ _ id ht hn hf

/-- Witness for C7 on a cache name that was never created. -/
theorem forget_missing_is_warning_noop_witness :
    (jsGet initRegistry.names (jsKey (argName (.two (.str "nonexistent-cache") "some/path"))) = none →
      forget initRegistry (.two (.str "nonexistent-cache") "some/path") = .ok (initRegistry, [(pluginName,
        "- .forget() warning: cache " ++ jsKey (argName (.two (.str "nonexistent-cache") "some/path")) ++ " not found")]))
    ∧ (∀ id, jsGet initRegistry.names (jsKey (argName (.two (.str "nonexistent-cache") "some/path"))) = some id →
        jsGet (cacheAt initRegistry id).files (argPath (.two (.str "nonexistent-cache") "some/path")) = none →
        forget initRegistry (.two (.str "nonexistent-cache") "some/path") = .ok (initRegistry, [(pluginName,
          "- .forget() warning: file " ++ argPath (.two (.str "nonexistent-cache") "some/path") ++ " not found in cache " ++ jsKey (argName (.two (.str "nonexistent-cache") "some/path")))])) :=
  forget_missing_is_warning_noop initRegistry (.two (.str "nonexistent-cache") "some/path") (by decide)

/-- C8: counterexample. For a cache name never created, cacheFor and
historyFor return undefined (modelled none), which is not the empty
mapping the claim promises. -/
theorem cacheFor_empty_mapping_claim_false :
    cacheFor initRegistry (some (.str "never-created")) = .ok none
    ∧ (.ok none : Except PluginError (Option (JsMap VFile))) ≠ .ok (some [])
    ∧ historyFor initRegistry (some (.str "never-created")) = .ok none
    ∧ (.ok none : Except PluginError (Option (JsMap String))) ≠ .ok (some []) := by
  refine ⟨rfl, by simp, rfl, by simp⟩

/-- C8 (amended): for every cache name of valid type never created in the
registry, cacheFor and historyFor return undefined (the property access on
the empty-object fallback), not an empty mapping. -/
theorem accessors_missing_cache_undefined (r : Registry) (arg : Option JSVal)
    (ht : isNumOrStr (arg.getD (.str defaultName)) = true)
    (hn : jsGet r.names (jsKey (arg.getD (.str defaultName))) = none) :
    cacheFor r arg = .ok none ∧ historyFor r arg = .ok none := by
  constructor
  · simp [cacheFor, ht, hn]
  · simp [historyFor, ht, hn]

/-- Witness for C8 (amended) at a never-created cache name. -/
theorem accessors_missing_cache_undefined_witness :
    cacheFor initRegistry (some (.str "ghost")) = .ok none
    ∧ historyFor initRegistry (some (.str "ghost")) = .ok none :=
  accessors_missing_cache_undefined initRegistry (some (.str "ghost"))
    (by decide) (by decide)

/-- C9: constructing a stage with cache name 0 or the empty string behaves
exactly like constructing with no name at all, binding the reserved
default cache, whose name differs from the string 0 and from the empty
string. -/
theorem falsy_name_binds_default :
    (∀ r : Registry, gulpRemember r (.num 0) = gulpRemember r .undef)
    ∧ (∀ r : Registry, gulpRemember r (.str "") = gulpRemember r .undef)
    ∧ resolveCtorName (.num 0) = defaultName
    ∧ resolveCtorName (.str "") = defaultName
    ∧ defaultName ≠ "0"
    ∧ defaultName ≠ "" := by
  refine ⟨fun r => rfl, fun r => rfl, rfl, rfl, by decide, by decide⟩

/-- C10: a store never removes anything from the bound cache: every files
entry at another path is unchanged, every history entry keyed outside the
record history sequence is unchanged, a history entry only ever changes by
being set to the record path, and no existing history key disappears. -/
theorem transform_frame (r : Registry) (id : Nat) (f : VFile) :
    (∀ q, q ≠ f.path →
        jsGet (cacheAt (transform r id f) id).files q = jsGet (cacheAt r id).files q)
    ∧ (∀ H, H ∉ f.history.getD [] →
        jsGet (cacheAt (transform r id f) id).history H = jsGet (cacheAt r id).history H)
    ∧ (∀ H, jsGet (cacheAt (transform r id f) id).history H = jsGet (cacheAt r id).history H
        ∨ jsGet (cacheAt (transform r id f) id).history H = some f.path)
    ∧ (∀ H v, jsGet (cacheAt r id).history H = some v →
        (jsGet (cacheAt (transform r id f) id).history H).isSome = true) := by
  have hfiles : (cacheAt (transform r id f) id).files =
      jsSet (cacheAt r id).files f.path f := by
    rw [cacheAt_transform_self]
  have hhist : (cacheAt (transform r id f) id).history =
      (f.history.getD []).foldl (fun h p => jsSet h p f.path) (cacheAt r id).history := by
    rw [cacheAt_transform_self]
  refine ⟨?_, ?_, ?_, ?_⟩
  · intro q hq
    rw [hfiles]
    exact jsGet_set_ne _ _ _ _ hq
  · intro H hH
    rw [hhist, jsGet_foldl_set, if_neg hH]
  · intro H
    rw [hhist, jsGet_foldl_set]
    by_cases hH : H ∈ f.history.getD []
    · right
      rw [if_pos hH]
    · left
      rw [if_neg hH]
  · intro H v hv
    rw [hhist, jsGet_foldl_set]
    by_cases hH : H ∈ f.history.getD []
    · rw [if_pos hH]
      rfl
    · rw [if_neg hH, hv]
      rfl

/-- Witness for C10 at the two-record state and the record at a. -/
theorem transform_frame_witness :
    (∀ q, q ≠ recA2.path →
        jsGet (cacheAt (transform c2pre 0 recA2) 0).files q = jsGet (cacheAt c2pre 0).files q)
    ∧ (∀ H, H ∉ recA2.history.getD [] →
        jsGet (cacheAt (transform c2pre 0 recA2) 0).history H = jsGet (cacheAt c2pre 0).history H)
    ∧ (∀ H, jsGet (cacheAt (transform c2pre 0 recA2) 0).history H = jsGet (cacheAt c2pre 0).history H
        ∨ jsGet (cacheAt (transform c2pre 0 recA2) 0).history H = some recA2.path)
    ∧ (∀ H v, jsGet (cacheAt c2pre 0).history H = some v →
        (jsGet (cacheAt (transform c2pre 0 recA2) 0).history H).isSome = true) :=
  transform_frame c2pre 0 recA2

end GulpRemember
